import Mathlib

/-!
Verification of the homebridge-technotherm plugin core: a shallow embedding
of the device/accessory reconciliation engine (`Technotherm.discoverDevices`,
src/platform.ts) and of the per-accessory controller (`Radiator`,
src/radiator.ts), together with theorems settling the testable properties of
the specification.

The host runtime's UUID hash (`api.hap.uuid.generate`) is an external
collaborator; it is modelled as an explicit function parameter `gen`.
Remote calls are modelled by `Except`-valued fields of `RemoteClient`; all
observable side effects of a discovery pass (renames pushed to the
persistence layer, registrations, removals, controller bindings, error logs)
are accumulated in an explicit `PassState`.
-/

namespace Technotherm

/-! ## Data model (Helki API types as consumed by the plugin) -/

structure Device where
  dev_id : String
  name : String
  product_id : String
  deriving DecidableEq, Repr

/-- A heating zone inside a `Device`.  `uid` and `name` are optional: the
source falls back to the parent device's attributes "in case they're
undefined", and JavaScript `||` also treats an empty string as absent. -/
structure Node where
  uid : Option String
  name : Option String
  deriving DecidableEq, Repr

structure Group where
  name : String
  devs : List Device
  deriving DecidableEq, Repr

/-- Live state of one node, as delivered by the status subscription.  The
`mode` field is kept as a raw string since the projection in the source
switches on string literals and ignores anything unrecognised. -/
structure Status where
  mtemp : String
  stemp : String
  mode : String
  active : Bool
  deriving DecidableEq, Repr

/-- JavaScript `a || b` for an optional string `a`: `a` when truthy
(present and nonempty), else `b`. -/
def jsOr (a : Option String) (b : String) : String :=
  match a with
  | some s => if s = "" then b else s
  | none => b

/-! ## Identity resolver (src/platform.ts lines 81-82) -/

/-- `node.name || device.name`. -/
def accessoryName (node : Node) (device : Device) : String :=
  jsOr node.name device.name

/-- `this.api.hap.uuid.generate(node.uid || device.dev_id)`; the host hash
primitive is the parameter `gen`. -/
def accessoryUUID (gen : String → String) (node : Node) (device : Device) : String :=
  gen (jsOr node.uid device.dev_id)

/-! ## HomeKit characteristic constants used by the controller -/

/-- `Characteristic.TargetHeatingCoolingState.OFF` -/
def TargetOFF : Nat := 0

/-- `Characteristic.TargetHeatingCoolingState.HEAT` -/
def TargetHEAT : Nat := 1

/-- `Characteristic.TargetHeatingCoolingState.COOL` -/
def TargetCOOL : Nat := 2

/-- `Characteristic.TargetHeatingCoolingState.AUTO` -/
def TargetAUTO : Nat := 3

/-- `Characteristic.CurrentHeatingCoolingState.OFF` -/
def CurrentOFF : Nat := 0

/-- `Characteristic.CurrentHeatingCoolingState.HEAT` -/
def CurrentHEAT : Nat := 1

/-! ## Radiator controller (src/radiator.ts) -/

/-- Value of a digit string read left to right (char codes, '0' = 48). -/
def digitsVal (l : List Char) : Nat :=
  l.foldl (fun n c => n * 10 + (c.toNat - 48)) 0

/-- Split a character list at the first '.', keeping both halves. -/
def splitAtDot : List Char → List Char × List Char
  | [] => ([], [])
  | c :: cs =>
    if c = '.' then ([], cs)
    else
      let p := splitAtDot cs
      (c :: p.1, p.2)

/-- Models the JavaScript builtin `parseFloat` on the plain unsigned decimal
literals the Helki service emits for `mtemp`/`stemp` (digits, optionally a
dot and more digits). -/
def parseFloatModel (s : String) : Rat :=
  let p := splitAtDot s.toList
  (digitsVal p.1 : Rat) + (digitsVal p.2 : Rat) / (10 : Rat) ^ p.2.length

/-- The four thermostat characteristics the controller writes. -/
structure ThermoState where
  currentTemperature : Rat
  targetTemperature : Rat
  targetHeatingCoolingState : Nat
  currentHeatingCoolingState : Nat
  deriving DecidableEq, Repr

/-- `Radiator.onDeviceUpdate` (src/radiator.ts lines 33-63): projects an
inbound `Status` onto the characteristic state.  The source `switch` on
`status.mode` is rendered as the equivalent chain of equality tests; an
unrecognised mode falls through every case and leaves the target mode
characteristic untouched. -/
def onDeviceUpdate (status : Status) (st : ThermoState) : ThermoState :=
  let st1 := { st with currentTemperature := parseFloatModel status.mtemp }
  let st2 := { st1 with targetTemperature := parseFloatModel status.stemp }
  let st3 :=
    if status.mode = "auto" ∨ status.mode = "modified_auto" then
      { st2 with targetHeatingCoolingState := TargetAUTO }
    else if status.mode = "manual" then
      { st2 with targetHeatingCoolingState := TargetHEAT }
    else if status.mode = "off" then
      { st2 with targetHeatingCoolingState := TargetOFF }
    else st2
  { st3 with currentHeatingCoolingState :=
      if status.active then CurrentHEAT else CurrentOFF }

/-- Models `Number(value).toFixed(1)` (ECMA-262): the integer `n` for which
`n / 10` is closest to the value, ties resolved to the larger `n`, rendered
with exactly one digit after the dot.  For `value = p/q` that integer is
`⌊(20p + q) / (2q)⌋`, written with `Int.fdiv` so the definition evaluates. -/
def toFixed1 (x : Rat) : String :=
  let n : Int := Int.fdiv (x.num * 20 + (x.den : Int)) (2 * (x.den : Int))
  if n < 0 then
    "-" ++ toString ((-n).toNat / 10) ++ "." ++ toString ((-n).toNat % 10)
  else
    toString (n.toNat / 10) ++ "." ++ toString (n.toNat % 10)

/-- A partial status object passed to `helki.setStatus`; absent fields are
`none`. -/
structure SetStatusCmd where
  stemp : Option String := none
  mode : Option String := none
  units : Option String := none
  deriving DecidableEq, Repr

/-- `Radiator.setTargetTemperature` (src/radiator.ts lines 73-84).  The
remote call's outcome is the `setStatusResult` parameter; the handler's
try/catch is modelled by returning the commands sent together with the
error-log lines instead of throwing — the function is total, so a remote
failure never escapes the handler. -/
def setTargetTemperature (setStatusResult : Except String Unit) (value : Rat) :
    List SetStatusCmd × List String :=
  let stemp := toFixed1 value
  let cmd : SetStatusCmd := { stemp := some stemp, mode := some "manual", units := some "C" }
  match setStatusResult with
  | .ok _ => ([cmd], [])
  | .error _ => ([cmd], ["Failed to set target temperature:"])

/-- The mode-string computation inside `Radiator.setTargetHeatingCoolingState`:
HEAT maps to "manual", AUTO to "auto", anything else to "off". -/
def heatingModeFor (value : Nat) : String :=
  if value = TargetHEAT then "manual"
  else if value = TargetAUTO then "auto"
  else "off"

/-- `Radiator.setTargetHeatingCoolingState` (src/radiator.ts lines 86-101),
modelled like `setTargetTemperature`: the single command sent carries only a
mode field, and a remote failure is logged, never thrown. -/
def setTargetHeatingCoolingState (setStatusResult : Except String Unit) (value : Nat) :
    List SetStatusCmd × List String :=
  let cmd : SetStatusCmd := { mode := some (heatingModeFor value) }
  match setStatusResult with
  | .ok _ => ([cmd], [])
  | .error _ => ([cmd], ["Failed to set target heating/cooling state:"])

/-! ## Claims about the identity resolver and the controller -/

/-- C1 (counterexample): a Node whose `uid` is defined but empty is a "Node
with a defined uid", yet its UUID changes when only the parent Device's
`dev_id` changes, so the UUID does not depend only on that uid: the fallback
fires on JavaScript truthiness, not definedness. -/
theorem uuid_defined_uid_counterexample :
    accessoryUUID (fun s => s) { uid := some "", name := some "x" }
        { dev_id := "a", name := "d", product_id := "p" } ≠
      accessoryUUID (fun s => s) { uid := some "", name := some "x" }
        { dev_id := "b", name := "d", product_id := "p" } := by
  decide

/-- C1 (amended): the accessory UUID is `generate(node.uid || device.dev_id)`;
for every Node with a truthy (defined and nonempty) uid the UUID depends only
on that uid — in particular changing the node's name never changes it — and
for every Node without a uid the UUID depends only on the parent Device's
`dev_id`. -/
theorem uuid_of_node_and_device
    (gen : String → String) (n n' : Node) (d d' : Device) :
    (accessoryUUID gen n d = gen (jsOr n.uid d.dev_id)) ∧
    (∀ u, n.uid = some u → u ≠ "" → n'.uid = n.uid →
      accessoryUUID gen n' d' = accessoryUUID gen n d) ∧
    (n.uid = none → n'.uid = none → d'.dev_id = d.dev_id →
      accessoryUUID gen n' d' = accessoryUUID gen n d) := by
  refine ⟨rfl, ?_, ?_⟩
  · intro u hu hne h'
    simp [accessoryUUID, jsOr, hu, h', hne]
  · intro hu hu' hd
    simp [accessoryUUID, jsOr, hu, hu', hd]

/-- Witness for `uuid_of_node_and_device`: a node with uid "u1" keeps its
UUID when its name and its parent device both change, and a node with no uid
keeps its UUID when only the device's `dev_id` is retained. -/
theorem uuid_of_node_and_device_witness :
    (accessoryUUID (fun s => s) { uid := some "u1", name := some "B" }
        { dev_id := "db", name := "e", product_id := "q" } =
      accessoryUUID (fun s => s) { uid := some "u1", name := some "A" }
        { dev_id := "da", name := "d", product_id := "p" }) ∧
    (accessoryUUID (fun s => s) { uid := none, name := some "B" }
        { dev_id := "da", name := "e", product_id := "q" } =
      accessoryUUID (fun s => s) { uid := none, name := some "A" }
        { dev_id := "da", name := "d", product_id := "p" }) :=
  ⟨(uuid_of_node_and_device (fun s => s)
      { uid := some "u1", name := some "A" }
      { uid := some "u1", name := some "B" }
      { dev_id := "da", name := "d", product_id := "p" }
      { dev_id := "db", name := "e", product_id := "q" }).2.1
        "u1" rfl (by decide) rfl,
   (uuid_of_node_and_device (fun s => s)
      { uid := none, name := some "A" }
      { uid := none, name := some "B" }
      { dev_id := "da", name := "d", product_id := "p" }
      { dev_id := "da", name := "e", product_id := "q" }).2.2
        rfl rfl rfl⟩

/-- C10: the Node-to-Device fallback is decided by truthiness, not
definedness — a node whose uid is the defined-but-empty string derives its
UUID from the device's `dev_id`, and a node whose name is the empty string
takes the device's name as display name. -/
theorem truthiness_fallback (gen : String → String) (d : Device)
    (nm u : Option String) :
    (accessoryUUID gen { uid := some "", name := nm } d = gen d.dev_id) ∧
    (accessoryName { uid := u, name := some "" } d = d.name) := by
  constructor <;> simp [accessoryUUID, accessoryName, jsOr]

/-- C4: the sample status `{mtemp:"19.5", stemp:"21.0", mode:"auto",
active:true}` projects to current temperature 19.5, target temperature 21.0,
target mode AUTO and current mode HEAT; every status with mode "off" sets the
target mode to OFF regardless of `active`, and every status with
`active:false` sets the current mode to OFF regardless of `mode`. -/
theorem status_projection (s : Status) (st : ThermoState) :
    ((onDeviceUpdate { mtemp := "19.5", stemp := "21.0", mode := "auto", active := true }
        st).currentTemperature = 19.5 ∧
     (onDeviceUpdate { mtemp := "19.5", stemp := "21.0", mode := "auto", active := true }
        st).targetTemperature = 21 ∧
     (onDeviceUpdate { mtemp := "19.5", stemp := "21.0", mode := "auto", active := true }
        st).targetHeatingCoolingState = TargetAUTO ∧
     (onDeviceUpdate { mtemp := "19.5", stemp := "21.0", mode := "auto", active := true }
        st).currentHeatingCoolingState = CurrentHEAT) ∧
    (s.mode = "off" → (onDeviceUpdate s st).targetHeatingCoolingState = TargetOFF) ∧
    (s.active = false → (onDeviceUpdate s st).currentHeatingCoolingState = CurrentOFF) := by
  have h195 : parseFloatModel "19.5" = 19.5 := by
    have hs : splitAtDot "19.5".toList = (['1', '9'], ['5']) := by decide
    have h1 : digitsVal ['1', '9'] = 19 := by decide
    have h2 : digitsVal ['5'] = 5 := by decide
    simp only [parseFloatModel, hs, h1, h2]
    norm_num
  have h210 : parseFloatModel "21.0" = 21 := by
    have hs : splitAtDot "21.0".toList = (['2', '1'], ['0']) := by decide
    have h1 : digitsVal ['2', '1'] = 21 := by decide
    have h2 : digitsVal ['0'] = 0 := by decide
    simp only [parseFloatModel, hs, h1, h2]
    norm_num
  refine ⟨⟨?_, ?_, ?_, ?_⟩, ?_, ?_⟩
  · simp [onDeviceUpdate, h195]
  · simp [onDeviceUpdate, h210]
  · simp [onDeviceUpdate]
  · simp [onDeviceUpdate]
  · intro hmode
    simp +decide [onDeviceUpdate, hmode]
  · intro hact
    simp [onDeviceUpdate, hact]

/-- Witness for `status_projection`: the "off"/inactive clauses at a concrete
status and a concrete prior characteristic state. -/
theorem status_projection_witness :
    ((onDeviceUpdate { mtemp := "1", stemp := "2", mode := "off", active := true }
        { currentTemperature := 0, targetTemperature := 0,
          targetHeatingCoolingState := 3, currentHeatingCoolingState := 1
        }).targetHeatingCoolingState = TargetOFF) ∧
    ((onDeviceUpdate { mtemp := "1", stemp := "2", mode := "auto", active := false }
        { currentTemperature := 0, targetTemperature := 0,
          targetHeatingCoolingState := 3, currentHeatingCoolingState := 1
        }).currentHeatingCoolingState = CurrentOFF) :=
  ⟨(status_projection { mtemp := "1", stemp := "2", mode := "off", active := true }
      { currentTemperature := 0, targetTemperature := 0,
        targetHeatingCoolingState := 3, currentHeatingCoolingState := 1 }).2.1 rfl,
   (status_projection { mtemp := "1", stemp := "2", mode := "auto", active := false }
      { currentTemperature := 0, targetTemperature := 0,
        targetHeatingCoolingState := 3, currentHeatingCoolingState := 1 }).2.2 rfl⟩

/-- C9: a status whose mode is none of "auto", "modified_auto", "manual",
"off" leaves the target-mode characteristic unchanged (and raises no error —
the projection is total), while the two temperatures and the current-mode
characteristic are still updated from `mtemp`, `stemp` and `active`. -/
theorem unknown_mode_frame (s : Status) (st : ThermoState)
    (h1 : s.mode ≠ "auto") (h2 : s.mode ≠ "modified_auto")
    (h3 : s.mode ≠ "manual") (h4 : s.mode ≠ "off") :
    (onDeviceUpdate s st).targetHeatingCoolingState = st.targetHeatingCoolingState ∧
    (onDeviceUpdate s st).currentTemperature = parseFloatModel s.mtemp ∧
    (onDeviceUpdate s st).targetTemperature = parseFloatModel s.stemp ∧
    (onDeviceUpdate s st).currentHeatingCoolingState =
      (if s.active then CurrentHEAT else CurrentOFF) := by
  have hc : ¬(s.mode = "auto" ∨ s.mode = "modified_auto") := by
    simp [h1, h2]
  refine ⟨?_, ?_, ?_, ?_⟩ <;> simp [onDeviceUpdate, hc, h3, h4]

/-- Witness for `unknown_mode_frame` at the unrecognised mode "boost". -/
theorem unknown_mode_frame_witness :
    (onDeviceUpdate { mtemp := "1", stemp := "2", mode := "boost", active := true }
      { currentTemperature := 0, targetTemperature := 0,
        targetHeatingCoolingState := 3, currentHeatingCoolingState := 0
      }).targetHeatingCoolingState = 3 :=
  (unknown_mode_frame { mtemp := "1", stemp := "2", mode := "boost", active := true }
    { currentTemperature := 0, targetTemperature := 0,
      targetHeatingCoolingState := 3, currentHeatingCoolingState := 0 }
    (by decide) (by decide) (by decide) (by decide)).1

/-- C5: every target-temperature write sends exactly one remote command, whose
payload is the value formatted to one decimal place together with mode
"manual" and units "C" — whether or not the remote call later fails — and
writing 20 sends `{stemp:"20.0", mode:"manual", units:"C"}`. -/
theorem set_target_temperature_payload (res : Except String Unit) (value : Rat) :
    ((setTargetTemperature res value).1 =
      [{ stemp := some (toFixed1 value), mode := some "manual", units := some "C" }]) ∧
    toFixed1 20 = "20.0" := by
  constructor
  · cases res <;> rfl
  · simp only [toFixed1, Rat.num_ofNat, Rat.den_ofNat]
    decide

/-- C6: every target-mode write maps HEAT to "manual", AUTO to "auto" and
any other value to "off", sends exactly one remote command containing only
that mode, and a remote failure is caught and logged (the handler returns
normally with the error line) rather than thrown. -/
theorem set_target_mode_payload (res : Except String Unit) (value : Nat) :
    ((setTargetHeatingCoolingState res value).1 =
      [{ stemp := none, mode := some (heatingModeFor value), units := none }]) ∧
    heatingModeFor TargetHEAT = "manual" ∧
    heatingModeFor TargetAUTO = "auto" ∧
    (value ≠ TargetHEAT → value ≠ TargetAUTO → heatingModeFor value = "off") ∧
    (∀ e, res = .error e →
      (setTargetHeatingCoolingState res value).2 =
        ["Failed to set target heating/cooling state:"]) ∧
    (res = .ok () → (setTargetHeatingCoolingState res value).2 = []) := by
  refine ⟨?_, rfl, ?_, ?_, ?_, ?_⟩
  · cases res <;> rfl
  · simp [heatingModeFor, TargetHEAT, TargetAUTO]
  · intro hh ha
    simp [heatingModeFor, hh, ha]
  · intro e he
    subst he
    rfl
  · intro h
    subst h
    rfl

/-- Witness for `set_target_mode_payload`: the OFF value (0) maps to "off"
and a failing remote call yields the log line instead of an exception. -/
theorem set_target_mode_payload_witness :
    heatingModeFor 0 = "off" ∧
    (setTargetHeatingCoolingState (.error "boom") 0).2 =
      ["Failed to set target heating/cooling state:"] :=
  ⟨(set_target_mode_payload (.error "boom") 0).2.2.2.1 (by decide) (by decide),
   (set_target_mode_payload (.error "boom") 0).2.2.2.2.1 "boom" rfl⟩

/-! ## Reconciliation engine (src/platform.ts, `Technotherm.discoverDevices`)

The long-lived `this.accessories` array together with the pass's observable
side effects is threaded through the walk as an explicit `PassState`:

* `accessories` — the in-memory cached-accessory list.  The source mutates a
  found entry's `displayName` in place on rename; it never appends newly
  registered accessories to this list and never removes unregistered ones.
* `renames` — one entry `(UUID, old name, new name)` per
  `updatePlatformAccessories` call (the push to the persistence layer).
* `registered` — accessories passed to `registerPlatformAccessories`.
* `unregistered` — accessories passed to `unregisterPlatformAccessories`
  (the host-side unregister is modelled as succeeding; its own failure is
  caught and only logged by the source).
* `controllers` — the UUID of each accessory a `new Radiator(...)` is bound
  to during the pass.
* `errors` — lines logged by the top-level catch.

The `log.warn`/`log.info` lines of the source are pure logging and are not
modelled. -/

/-- A locally persisted accessory: identity, display name, and the
`accessory.context` fields.  The context fields are optional because an
accessory restored from the host cache may predate them. -/
structure AccessoryRecord where
  UUID : String
  displayName : String
  ctxDevice : Option Device
  ctxNode : Option Node
  ctxHome : Option String
  deriving DecidableEq, Repr

structure PassState where
  accessories : List AccessoryRecord
  renames : List (String × String × String)
  registered : List AccessoryRecord
  unregistered : List AccessoryRecord
  controllers : List String
  errors : List String
  deriving DecidableEq, Repr

/-- The find?-predicate `accessory => accessory.UUID === accessoryUUID`. -/
def byUUID (u : String) : AccessoryRecord → Bool :=
  fun a => decide (a.UUID = u)

/-- In-place mutation `existingAccessory.displayName = accessoryName`: the
array keeps its order, only the first record with the given UUID (the one
`find` returned) gets the new display name. -/
def renameFirst (l : List AccessoryRecord) (u : String) (nm : String) :
    List AccessoryRecord :=
  match l with
  | [] => []
  | a :: rest =>
    if a.UUID = u then { a with displayName := nm } :: rest
    else a :: renameFirst rest u nm

/-- The per-node body of the discovery loop (src/platform.ts lines 80-126).
`homeM` is the configured home resolved against the fetched groups (`home` in
the source); the source's guard `home && context.home !== home.name` and its
two disjoint registration `if`s are rendered as the corresponding matches. -/
def processNode (gen : String → String) (homeM : Option Group) (group : Group)
    (device : Device) (node : Node) (st : PassState) : PassState :=
  let name := accessoryName node device
  let uuid := accessoryUUID gen node device
  match st.accessories.find? (byUUID uuid) with
  | some existingAccessory =>
    let keep : PassState :=
      let st1 :=
        if existingAccessory.displayName ≠ name then
          { st with
              accessories := renameFirst st.accessories uuid name,
              renames := st.renames ++ [(uuid, existingAccessory.displayName, name)] }
        else st
      { st1 with controllers := st1.controllers ++ [uuid] }
    match homeM with
    | some home =>
      if existingAccessory.ctxHome ≠ some home.name then
        { st with unregistered := st.unregistered ++ [existingAccessory] }
      else keep
    | none => keep
  | none =>
    let accessory : AccessoryRecord :=
      { UUID := uuid, displayName := name, ctxDevice := some device,
        ctxNode := some node, ctxHome := some group.name }
    match homeM with
    | some home =>
      if group.name = home.name then
        { st with
            controllers := st.controllers ++ [uuid],
            registered := st.registered ++ [accessory] }
      else st
    | none =>
      { st with
          controllers := st.controllers ++ [uuid],
          registered := st.registered ++ [accessory] }

/-- The remote directory client; fallible calls return `Except`. -/
structure RemoteClient where
  getGroupedDevices : Except String (List Group)
  getNodes : String → Except String (List Node)

def processNodes (gen : String → String) (homeM : Option Group) (group : Group)
    (device : Device) : List Node → PassState → PassState
  | [], st => st
  | n :: ns, st =>
    processNodes gen homeM group device ns (processNode gen homeM group device n st)

/-- One device of the loop: fetch its nodes (a failure escapes to the
top-level catch, carrying the effects so far); an empty node list is skipped
(the source logs a warning and continues, which with no nodes coincides with
running the loop body zero times). -/
def processDevice (client : RemoteClient) (gen : String → String)
    (homeM : Option Group) (group : Group) (device : Device) (st : PassState) :
    Except (String × PassState) PassState :=
  match client.getNodes device.dev_id with
  | .error e => .error (e, st)
  | .ok nodes => .ok (processNodes gen homeM group device nodes st)

def processDevices (client : RemoteClient) (gen : String → String)
    (homeM : Option Group) (group : Group) :
    List Device → PassState → Except (String × PassState) PassState
  | [], st => .ok st
  | d :: ds, st =>
    match processDevice client gen homeM group d st with
    | .error e => .error e
    | .ok st' => processDevices client gen homeM group ds st'

def processGroups (client : RemoteClient) (gen : String → String)
    (homeM : Option Group) : List Group → PassState → Except (String × PassState) PassState
  | [], st => .ok st
  | g :: gs, st =>
    match processDevices client gen homeM g g.devs st with
    | .error e => .error e
    | .ok st' => processGroups client gen homeM gs st'

/-- The state at the top of a pass: the cached accessories, no effects yet. -/
def initState (accessories : List AccessoryRecord) : PassState :=
  { accessories := accessories, renames := [], registered := [],
    unregistered := [], controllers := [], errors := [] }

/-- `Technotherm.discoverDevices` (src/platform.ts lines 51-134): fetch the
grouped devices, resolve the configured home by name
(`groups.find(home => home.name === this.config.home)` — never a match when
the config has no home), walk the topology, and catch any error at the top
level, turning it into a log line on the state reached so far. -/
def discoverDevices (client : RemoteClient) (cfgHome : Option String)
    (gen : String → String) (accessories : List AccessoryRecord) : PassState :=
  match client.getGroupedDevices with
  | .error e =>
    { initState accessories with errors := ["Failed to discover devices: " ++ e] }
  | .ok groups =>
    let home := groups.find? (fun g => decide (some g.name = cfgHome))
    match processGroups client gen home groups (initState accessories) with
    | .ok st => st
    | .error (e, st) =>
      { st with errors := st.errors ++ ["Failed to discover devices: " ++ e] }

/-! ## Claims about single branches of the pass -/

/-! Concrete fixtures used by witnesses and counterexamples. -/

def grpA : Group := { name := "A", devs := [] }

def grpB : Group := { name := "B", devs := [] }

def dev1 : Device := { dev_id := "d1", name := "Dev", product_id := "p" }

def node1 : Node := { uid := some "n1", name := some "Rad" }

def node2 : Node := { uid := some "n2", name := some "Rad2" }

def node1New : Node := { uid := some "n1", name := some "New" }

/-- A cached accessory for `node1` recorded under home "A". -/
def radA : AccessoryRecord :=
  { UUID := "n1", displayName := "Rad", ctxDevice := none, ctxNode := none,
    ctxHome := some "A" }

/-- `radA` with the stale display name "Old". -/
def radOld : AccessoryRecord :=
  { UUID := "n1", displayName := "Old", ctxDevice := none, ctxNode := none,
    ctxHome := some "A" }

/-- `radA` renamed to "New". -/
def radNew : AccessoryRecord :=
  { UUID := "n1", displayName := "New", ctxDevice := none, ctxNode := none,
    ctxHome := some "A" }

/-- C2: with a home filter active the two home-mismatch branches differ: an
existing accessory whose recorded home differs from the matched home's name
is unregistered — and nothing else happens for that node, in particular no
controller is bound — while a node with no existing accessory whose group
does not match the filter leaves the pass state completely unchanged: its
fresh record is never registered and never bound to a controller. -/
theorem home_mismatch_asymmetry (gen : String → String) (hg g : Group)
    (d : Device) (n : Node) (st : PassState) :
    (∀ ex, st.accessories.find? (byUUID (accessoryUUID gen n d)) = some ex →
      ex.ctxHome ≠ some hg.name →
      processNode gen (some hg) g d n st =
        { st with unregistered := st.unregistered ++ [ex] }) ∧
    (st.accessories.find? (byUUID (accessoryUUID gen n d)) = none →
      g.name ≠ hg.name →
      processNode gen (some hg) g d n st = st) := by
  constructor
  · intro ex hfind hmis
    simp [processNode, hfind, hmis]
  · intro hfind hne
    simp [processNode, hfind, hne]

/-- Witness for `home_mismatch_asymmetry`: a cached accessory recorded under
home "A" against filter "B" is unregistered, and an unknown node in group
"A" against filter "B" produces no state change at all. -/
theorem home_mismatch_asymmetry_witness :
    (processNode (fun s => s) (some grpB) grpA dev1 node1 (initState [radA]) =
      { initState [radA] with unregistered := [radA] }) ∧
    (processNode (fun s => s) (some grpB) grpA dev1 node2 (initState []) =
      initState []) :=
  ⟨(home_mismatch_asymmetry (fun s => s) grpB grpA dev1 node1 (initState [radA])).1
      radA (by decide) (by decide),
   (home_mismatch_asymmetry (fun s => s) grpB grpA dev1 node2 (initState [])).2
      (by decide) (by decide)⟩

/-- C8: the display name is `node.name || device.name`, and when an existing
accessory passes the home filter but its display name differs from the
freshly computed one, the record is renamed in place, the rename is pushed to
the persistence layer (`updatePlatformAccessories`), a controller is bound to
it, and no new accessory is registered. -/
theorem rename_on_name_change (gen : String → String) (homeM : Option Group)
    (g : Group) (d : Device) (n : Node) (st : PassState) :
    (accessoryName n d = jsOr n.name d.name) ∧
    (∀ ex, st.accessories.find? (byUUID (accessoryUUID gen n d)) = some ex →
      (∀ hg, homeM = some hg → ex.ctxHome = some hg.name) →
      ex.displayName ≠ accessoryName n d →
      processNode gen homeM g d n st =
        { st with
            accessories := renameFirst st.accessories (accessoryUUID gen n d)
              (accessoryName n d),
            renames := st.renames ++
              [(accessoryUUID gen n d, ex.displayName, accessoryName n d)],
            controllers := st.controllers ++ [accessoryUUID gen n d] }) ∧
    (∀ l u nm ex, l.find? (byUUID u) = some ex →
      (renameFirst l u nm).find? (byUUID u) = some { ex with displayName := nm }) := by
  refine ⟨rfl, ?_, ?_⟩
  · intro ex hfind hhome hne
    match hM : homeM with
    | none => simp [processNode, hfind, hne]
    | some hg =>
      have : ex.ctxHome = some hg.name := hhome hg rfl
      simp [processNode, hfind, hne, this]
  · intro l u nm ex hfind
    induction l with
    | nil => simp at hfind
    | cons a rest ih =>
      by_cases ha : a.UUID = u
      · rw [List.find?_cons_of_pos] at hfind
        · cases hfind
          simp [renameFirst, ha, List.find?_cons_of_pos, byUUID]
        · simp [byUUID, ha]
      · rw [List.find?_cons_of_neg] at hfind
        · simp only [renameFirst, ha, if_false]
          rw [List.find?_cons_of_neg]
          · exact ih hfind
          · simp [byUUID, ha]
        · simp [byUUID, ha]

/-- Witness for `rename_on_name_change`: a cached accessory named "Old" whose
node now reads "New" is renamed in place, the rename is recorded, and nothing
is registered. -/
theorem rename_on_name_change_witness :
    processNode (fun s => s) none grpA dev1 node1New (initState [radOld]) =
    { initState [radOld] with
      accessories := renameFirst (initState [radOld]).accessories
        (accessoryUUID (fun s => s) node1New dev1) (accessoryName node1New dev1),
      renames := (initState [radOld]).renames ++
        [(accessoryUUID (fun s => s) node1New dev1, radOld.displayName,
          accessoryName node1New dev1)],
      controllers := (initState [radOld]).controllers ++
        [accessoryUUID (fun s => s) node1New dev1] } :=
  (rename_on_name_change (fun s => s) none grpA dev1 node1New
    (initState [radOld])).2.1 radOld (by decide) (by intro hg h; cases h) (by decide)

/-- C7: `discoverDevices` yields a plain state, never a propagated error: a
failing topology fetch aborts the pass with the accessory list unchanged and
no registration, rename, removal or controller binding — only the error log —
and any failure later in the pass is likewise caught at the top level and
turned into a log line on the state reached so far. -/
theorem discover_catches_errors (client : RemoteClient) (cfgHome : Option String)
    (gen : String → String) (A : List AccessoryRecord) :
    (∀ e, client.getGroupedDevices = .error e →
      discoverDevices client cfgHome gen A =
        { accessories := A, renames := [], registered := [], unregistered := [],
          controllers := [], errors := ["Failed to discover devices: " ++ e] }) ∧
    (∀ gs e st, client.getGroupedDevices = .ok gs →
      processGroups client gen (gs.find? (fun g => decide (some g.name = cfgHome))) gs
        (initState A) = .error (e, st) →
      discoverDevices client cfgHome gen A =
        { st with errors := st.errors ++ ["Failed to discover devices: " ++ e] }) := by
  constructor
  · intro e he
    simp [discoverDevices, he, initState]
  · intro gs e st hok hrun
    simp [discoverDevices, hok, hrun]

/-- A client whose topology fetch fails outright. -/
def failingClient : RemoteClient :=
  { getGroupedDevices := .error "http 500", getNodes := fun _ => .ok [] }

/-- A client that returns one group with one device but times out on every
node fetch. -/
def nodeTimeoutClient : RemoteClient :=
  { getGroupedDevices := .ok [{ name := "A", devs := [dev1] }],
    getNodes := fun _ => .error "timeout" }

/-- Witness for `discover_catches_errors`: a client whose topology fetch
fails with "http 500" leaves the single cached accessory untouched and logs
the failure; a client whose node fetch fails mid-pass is also caught. -/
theorem discover_catches_errors_witness :
    (discoverDevices failingClient (some "B") (fun s => s) [radA] =
      { accessories := [radA], renames := [], registered := [], unregistered := [],
        controllers := [],
        errors := ["Failed to discover devices: " ++ "http 500"] }) ∧
    (discoverDevices nodeTimeoutClient none (fun s => s) [] =
      { initState [] with errors := ["Failed to discover devices: " ++ "timeout"] }) :=
  ⟨(discover_catches_errors failingClient (some "B") (fun s => s) [radA]).1
      "http 500" rfl,
   (discover_catches_errors nodeTimeoutClient none (fun s => s) []).2
      [{ name := "A", devs := [dev1] }] "timeout" (initState []) rfl rfl⟩

/-! ## Repeated discovery passes

A second discovery pass happens after a restart: the host accessory cache
persists registrations and removals, and `configureAccessory` (src/platform.ts
lines 41-46) pushes every cached accessory back into `this.accessories`. -/

/-- A client computed from a fixed topology: every remote call succeeds, and
`getNodes` is the pure function `f` of the device id. -/
def pureClient (gs : List Group) (f : String → List Node) : RemoteClient :=
  { getGroupedDevices := .ok gs, getNodes := fun d => .ok (f d) }

/-- The cached accessory list the next launch starts from: accessories
unregistered during the pass are dropped from the host cache (which is keyed
by UUID), newly registered ones are appended, and in-place renames were
already pushed. -/
def restartCache (st : PassState) : List AccessoryRecord :=
  st.accessories.filter
    (fun a => decide (a.UUID ∉ st.unregistered.map AccessoryRecord.UUID)) ++
  st.registered

/-- One node occurrence of the topology walk: its group, device and node. -/
abbrev Triple := Group × Device × Node

def uuidOf (gen : String → String) : Triple → String
  | (_, d, n) => accessoryUUID gen n d

def nameOf : Triple → String
  | (_, d, n) => accessoryName n d

/-- All (group, device, node) occurrences of a pure topology, in walk order. -/
def flatT (f : String → List Node) (gs : List Group) : List Triple :=
  gs.flatMap (fun g => g.devs.flatMap (fun d => (f d.dev_id).map (fun n => (g, d, n))))

/-- The accessory record the engine constructs for an unmatched node. -/
def mkNew (gen : String → String) : Triple → AccessoryRecord
  | (g, d, n) =>
    { UUID := accessoryUUID gen n d, displayName := accessoryName n d,
      ctxDevice := some d, ctxNode := some n, ctxHome := some g.name }

/-- Folding the per-node loop body over a list of occurrences. -/
def runT (gen : String → String) (homeM : Option Group) :
    List Triple → PassState → PassState
  | [], st => st
  | (g, d, n) :: ts, st => runT gen homeM ts (processNode gen homeM g d n st)

/-- Everything of an accessory record except its display name — the only
field a pass ever mutates. -/
def projA (a : AccessoryRecord) :
    String × Option Device × Option Node × Option String :=
  (a.UUID, a.ctxDevice, a.ctxNode, a.ctxHome)

/-- Whether the walk unregisters this occurrence's accessory, read off the
accessory list at the start of the pass (the list's UUIDs and homes never
change during a pass, so the condition is stable). -/
def remCondB (homeM : Option Group) (acc : List AccessoryRecord)
    (gen : String → String) : Triple → Bool
  | (_, d, n) =>
    match acc.find? (byUUID (accessoryUUID gen n d)), homeM with
    | some a, some hg => decide (a.ctxHome ≠ some hg.name)
    | _, _ => false

/-- Whether the walk registers a new accessory for this occurrence, read off
the accessory list at the start of the pass. -/
def regCondB (homeM : Option Group) (acc : List AccessoryRecord)
    (gen : String → String) : Triple → Bool
  | (g, d, n) =>
    (acc.find? (byUUID (accessoryUUID gen n d))).isNone &&
      (match homeM with
       | some hg => decide (g.name = hg.name)
       | none => true)

/-- An occurrence the engine passes over without renaming, registering or
unregistering anything (at most binding a controller): either its accessory
is present with the right recorded home and an up-to-date display name, or it
is absent and suppressed by the home filter. -/
def StableAt (gen : String → String) (homeM : Option Group)
    (acc : List AccessoryRecord) : Triple → Prop
  | (g, d, n) =>
    match acc.find? (byUUID (accessoryUUID gen n d)), homeM with
    | some a, some hg => a.ctxHome = some hg.name ∧ a.displayName = accessoryName n d
    | some a, none => a.displayName = accessoryName n d
    | none, some hg => g.name ≠ hg.name
    | none, none => False

/-- The counterexample topology: the configured home "B" exists and contains
`dev1` whose single node is `node1`. -/
def staleTopo : List Group := [{ name := "B", devs := [dev1] }]

def staleNodes : String → List Node := fun _ => [node1]

/-- C3 (counterexample): with home filter "B", a cached accessory for `node1`
whose recorded home is the stale value "A" — while the unchanged topology now
lists the node under group "B" — is unregistered by the first pass, and the
second pass, run against the identical remote topology, re-registers it: the
second pass performs a new accessory registration. -/
theorem discovery_second_pass_counterexample :
    (discoverDevices (pureClient staleTopo staleNodes) (some "B") (fun s => s)
        (restartCache (discoverDevices (pureClient staleTopo staleNodes) (some "B")
          (fun s => s) [radA]))).registered =
      [{ UUID := "n1", displayName := "Rad", ctxDevice := some dev1,
         ctxNode := some node1, ctxHome := some "B" }] := by
  decide

/-! ### List-level helper lemmas -/

theorem byUUID_true {u : String} {a : AccessoryRecord} (h : a.UUID = u) :
    byUUID u a = true := by
  simp [byUUID, h]

theorem byUUID_false {u : String} {a : AccessoryRecord} (h : a.UUID ≠ u) :
    byUUID u a = false := by
  simp [byUUID, h]

theorem uuid_of_find? {l : List AccessoryRecord} {u : String} {a : AccessoryRecord}
    (h : l.find? (byUUID u) = some a) : a.UUID = u := by
  have := List.find?_some h
  simpa [byUUID] using this

theorem renameFirst_map_projA (l : List AccessoryRecord) (u nm : String) :
    (renameFirst l u nm).map projA = l.map projA := by
  induction l with
  | nil => rfl
  | cons a rest ih =>
    by_cases h : a.UUID = u
    · simp [renameFirst, h, projA]
    · simp [renameFirst, h, ih]

theorem renameFirst_find?_ne {l : List AccessoryRecord} {u v nm : String}
    (h : v ≠ u) : (renameFirst l u nm).find? (byUUID v) = l.find? (byUUID v) := by
  induction l with
  | nil => rfl
  | cons a rest ih =>
    by_cases ha : a.UUID = u
    · have hb : byUUID v a = false := byUUID_false (by rw [ha]; exact h.symm)
      have hb' : byUUID v { a with displayName := nm } = false := hb
      simp only [renameFirst, if_pos ha]
      rw [List.find?_cons_of_neg _ (by simp [hb']), List.find?_cons_of_neg _ (by simp [hb])]
    · simp only [renameFirst, if_neg ha]
      by_cases hv : a.UUID = v
      · rw [List.find?_cons_of_pos _ (byUUID_true hv), List.find?_cons_of_pos _ (byUUID_true hv)]
      · rw [List.find?_cons_of_neg _ (by simp [byUUID_false hv]),
          List.find?_cons_of_neg _ (by simp [byUUID_false hv])]
        exact ih

theorem renameFirst_find?_eq {l : List AccessoryRecord} {u nm : String}
    {ex : AccessoryRecord} (hfind : l.find? (byUUID u) = some ex) :
    (renameFirst l u nm).find? (byUUID u) = some { ex with displayName := nm } := by
  induction l with
  | nil => simp at hfind
  | cons a rest ih =>
    by_cases ha : a.UUID = u
    · rw [List.find?_cons_of_pos _ (byUUID_true ha)] at hfind
      cases hfind
      simp only [renameFirst, if_pos ha]
      exact List.find?_cons_of_pos _ (byUUID_true ha)
    · rw [List.find?_cons_of_neg _ (by simp [byUUID_false ha])] at hfind
      simp only [renameFirst, if_neg ha]
      rw [List.find?_cons_of_neg _ (by simp [byUUID_false ha])]
      exact ih hfind

theorem find?_congr_projA {l₁ l₂ : List AccessoryRecord}
    (h : l₁.map projA = l₂.map projA) (u : String) :
    (l₁.find? (byUUID u)).map projA = (l₂.find? (byUUID u)).map projA := by
  induction l₁ generalizing l₂ with
  | nil =>
    cases l₂ with
    | nil => rfl
    | cons b l₂ => simp at h
  | cons a l₁ ih =>
    cases l₂ with
    | nil => simp at h
    | cons b l₂ =>
      simp only [List.map_cons, List.cons.injEq] at h
      obtain ⟨hab, htl⟩ := h
      have huu : a.UUID = b.UUID := congrArg Prod.fst hab
      by_cases hv : a.UUID = u
      · rw [List.find?_cons_of_pos _ (byUUID_true hv),
          List.find?_cons_of_pos _ (byUUID_true (huu ▸ hv))]
        simp [hab]
      · rw [List.find?_cons_of_neg _ (by simp [byUUID_false hv]),
          List.find?_cons_of_neg _ (by simp [byUUID_false (huu ▸ hv)])]
        exact ih htl

theorem find?_none_congr_projA {l₁ l₂ : List AccessoryRecord}
    (h : l₁.map projA = l₂.map projA) (u : String)
    (h1 : l₁.find? (byUUID u) = none) : l₂.find? (byUUID u) = none := by
  have hc := find?_congr_projA h u
  rw [h1] at hc
  cases h2 : l₂.find? (byUUID u) with
  | none => rfl
  | some b => rw [h2] at hc; simp at hc

theorem find?_some_congr_projA {l₁ l₂ : List AccessoryRecord}
    (h : l₁.map projA = l₂.map projA) (u : String) {a : AccessoryRecord}
    (ha : l₁.find? (byUUID u) = some a) :
    ∃ b, l₂.find? (byUUID u) = some b ∧ projA b = projA a := by
  have hc := find?_congr_projA h u
  rw [ha] at hc
  cases h2 : l₂.find? (byUUID u) with
  | none => rw [h2] at hc; simp at hc
  | some b =>
    rw [h2] at hc
    simp only [Option.map_some', Option.some.injEq] at hc
    exact ⟨b, rfl, hc.symm⟩

theorem find?_filter_keep {l : List AccessoryRecord} {u : String}
    {q : AccessoryRecord → Bool} (h : ∀ a, a.UUID = u → q a = true) :
    (l.filter q).find? (byUUID u) = l.find? (byUUID u) := by
  induction l with
  | nil => rfl
  | cons a rest ih =>
    by_cases hv : a.UUID = u
    · rw [List.filter_cons_of_pos (h a hv),
        List.find?_cons_of_pos _ (byUUID_true hv),
        List.find?_cons_of_pos _ (byUUID_true hv)]
    · cases hq : q a with
      | true =>
        rw [List.filter_cons_of_pos hq,
          List.find?_cons_of_neg _ (by simp [byUUID_false hv]),
          List.find?_cons_of_neg _ (by simp [byUUID_false hv])]
        exact ih
      | false =>
        rw [List.filter_cons_of_neg (by simp [hq]),
          List.find?_cons_of_neg _ (by simp [byUUID_false hv])]
        exact ih

theorem find?_filter_drop {l : List AccessoryRecord} {u : String}
    {q : AccessoryRecord → Bool} (h : ∀ a, a.UUID = u → q a = false) :
    (l.filter q).find? (byUUID u) = none := by
  rw [List.find?_eq_none]
  intro x hx
  have hxl := (List.mem_filter.mp hx).2
  intro hpx
  have hxu : x.UUID = u := by simpa [byUUID] using hpx
  rw [h x hxu] at hxl
  cases hxl

theorem find?_none_filter {l : List AccessoryRecord} {u : String}
    {q : AccessoryRecord → Bool} (h : l.find? (byUUID u) = none) :
    (l.filter q).find? (byUUID u) = none := by
  rw [List.find?_eq_none] at h ⊢
  intro x hx
  exact h x (List.mem_filter.mp hx).1

theorem find?_map_of_unique {α β : Type} {l : List α} {f : α → β} {p : β → Bool}
    {t : α} (ht : t ∈ l) (hpt : p (f t) = true)
    (huniq : ∀ a ∈ l, p (f a) = true → f a = f t) :
    (l.map f).find? p = some (f t) := by
  induction l with
  | nil => cases ht
  | cons a rest ih =>
    by_cases hpa : p (f a) = true
    · rw [List.map_cons, List.find?_cons_of_pos _ hpa,
        huniq a (List.mem_cons_self a rest) hpa]
    · rw [List.map_cons, List.find?_cons_of_neg _ hpa]
      apply ih
      · rcases List.mem_cons.mp ht with rfl | hmem
        · exact absurd hpt hpa
        · exact hmem
      · intro a' ha' hpa'
        exact huniq a' (List.mem_cons_of_mem _ ha') hpa'

/-! ### Case analysis of the per-node loop body -/

theorem pn_found_remove {gen : String → String} {hg : Group} (g : Group)
    (d : Device) (n : Node) (st : PassState) {ex : AccessoryRecord}
    (hfind : st.accessories.find? (byUUID (accessoryUUID gen n d)) = some ex)
    (hne : ex.ctxHome ≠ some hg.name) :
    processNode gen (some hg) g d n st =
      { st with unregistered := st.unregistered ++ [ex] } := by
  simp [processNode, hfind, hne]

theorem pn_found_keep_norename {gen : String → String} {homeM : Option Group}
    (g : Group) (d : Device) (n : Node) (st : PassState) {ex : AccessoryRecord}
    (hfind : st.accessories.find? (byUUID (accessoryUUID gen n d)) = some ex)
    (hkeep : ∀ hg, homeM = some hg → ex.ctxHome = some hg.name)
    (hnm : ex.displayName = accessoryName n d) :
    processNode gen homeM g d n st =
      { st with controllers := st.controllers ++ [accessoryUUID gen n d] } := by
  cases homeM with
  | none => simp [processNode, hfind, hnm]
  | some hg => simp [processNode, hfind, hnm, hkeep hg rfl]

theorem pn_found_keep_rename {gen : String → String} {homeM : Option Group}
    (g : Group) (d : Device) (n : Node) (st : PassState) {ex : AccessoryRecord}
    (hfind : st.accessories.find? (byUUID (accessoryUUID gen n d)) = some ex)
    (hkeep : ∀ hg, homeM = some hg → ex.ctxHome = some hg.name)
    (hnm : ex.displayName ≠ accessoryName n d) :
    processNode gen homeM g d n st =
      { st with
          accessories := renameFirst st.accessories (accessoryUUID gen n d)
            (accessoryName n d),
          renames := st.renames ++
            [(accessoryUUID gen n d, ex.displayName, accessoryName n d)],
          controllers := st.controllers ++ [accessoryUUID gen n d] } := by
  cases homeM with
  | none => simp [processNode, hfind, hnm]
  | some hg => simp [processNode, hfind, hnm, hkeep hg rfl]

theorem pn_notfound_reg {gen : String → String} {homeM : Option Group}
    (g : Group) (d : Device) (n : Node) (st : PassState)
    (hfind : st.accessories.find? (byUUID (accessoryUUID gen n d)) = none)
    (hreg : ∀ hg, homeM = some hg → g.name = hg.name) :
    processNode gen homeM g d n st =
      { st with
          registered := st.registered ++ [mkNew gen (g, d, n)],
          controllers := st.controllers ++ [accessoryUUID gen n d] } := by
  cases homeM with
  | none => simp [processNode, hfind, mkNew]
  | some hg => simp [processNode, hfind, mkNew, hreg hg rfl]

theorem pn_notfound_noreg {gen : String → String} {hg : Group} (g : Group)
    (d : Device) (n : Node) (st : PassState)
    (hfind : st.accessories.find? (byUUID (accessoryUUID gen n d)) = none)
    (hne : g.name ≠ hg.name) :
    processNode gen (some hg) g d n st = st := by
  simp [processNode, hfind, hne]

theorem pn_acc_projA (gen : String → String) (homeM : Option Group) (g : Group)
    (d : Device) (n : Node) (st : PassState) :
    (processNode gen homeM g d n st).accessories.map projA =
      st.accessories.map projA := by
  cases hf : st.accessories.find? (byUUID (accessoryUUID gen n d)) with
  | some ex =>
    cases homeM with
    | some hg =>
      by_cases hh : ex.ctxHome = some hg.name
      · by_cases hnm : ex.displayName = accessoryName n d <;>
          simp [processNode, hf, hh, hnm, renameFirst_map_projA]
      · simp [processNode, hf, hh]
    | none =>
      by_cases hnm : ex.displayName = accessoryName n d <;>
        simp [processNode, hf, hnm, renameFirst_map_projA]
  | none =>
    cases homeM with
    | some hg => by_cases hr : g.name = hg.name <;> simp [processNode, hf, hr]
    | none => simp [processNode, hf]

theorem pn_registered (gen : String → String) (homeM : Option Group) (g : Group)
    (d : Device) (n : Node) (st : PassState) :
    (processNode gen homeM g d n st).registered =
      st.registered ++
        (if regCondB homeM st.accessories gen (g, d, n) then [mkNew gen (g, d, n)]
         else []) := by
  cases hf : st.accessories.find? (byUUID (accessoryUUID gen n d)) with
  | some ex =>
    cases homeM with
    | some hg =>
      by_cases hh : ex.ctxHome = some hg.name
      · by_cases hnm : ex.displayName = accessoryName n d <;>
          simp [processNode, regCondB, hf, hh, hnm]
      · simp [processNode, regCondB, hf, hh]
    | none =>
      by_cases hnm : ex.displayName = accessoryName n d <;>
        simp [processNode, regCondB, hf, hnm]
  | none =>
    cases homeM with
    | some hg =>
      by_cases hr : g.name = hg.name <;> simp [processNode, regCondB, mkNew, hf, hr]
    | none => simp [processNode, regCondB, mkNew, hf]

theorem pn_unreg_uuids (gen : String → String) (homeM : Option Group) (g : Group)
    (d : Device) (n : Node) (st : PassState) :
    (processNode gen homeM g d n st).unregistered.map AccessoryRecord.UUID =
      st.unregistered.map AccessoryRecord.UUID ++
        (if remCondB homeM st.accessories gen (g, d, n) then [accessoryUUID gen n d]
         else []) := by
  cases hf : st.accessories.find? (byUUID (accessoryUUID gen n d)) with
  | some ex =>
    cases homeM with
    | some hg =>
      by_cases hh : ex.ctxHome = some hg.name
      · by_cases hnm : ex.displayName = accessoryName n d <;>
          simp [processNode, remCondB, hf, hh, hnm]
      · have hu : ex.UUID = accessoryUUID gen n d := uuid_of_find? hf
        simp [processNode, remCondB, hf, hh, hu]
    | none =>
      by_cases hnm : ex.displayName = accessoryName n d <;>
        simp [processNode, remCondB, hf, hnm]
  | none =>
    cases homeM with
    | some hg => by_cases hr : g.name = hg.name <;> simp [processNode, remCondB, hf, hr]
    | none => simp [processNode, remCondB, hf]

theorem pn_stable (gen : String → String) (homeM : Option Group) (g : Group)
    (d : Device) (n : Node) (st : PassState)
    (h : StableAt gen homeM st.accessories (g, d, n)) :
    (processNode gen homeM g d n st).accessories = st.accessories ∧
    (processNode gen homeM g d n st).renames = st.renames ∧
    (processNode gen homeM g d n st).registered = st.registered ∧
    (processNode gen homeM g d n st).unregistered = st.unregistered := by
  cases hf : st.accessories.find? (byUUID (accessoryUUID gen n d)) with
  | some ex =>
    cases homeM with
    | some hg =>
      simp only [StableAt, hf] at h
      obtain ⟨hh, hnm⟩ := h
      rw [pn_found_keep_norename g d n st hf (fun hg' e => by cases e; exact hh) hnm]
      simp
    | none =>
      simp only [StableAt, hf] at h
      rw [pn_found_keep_norename g d n st hf (fun hg' e => by cases e) h]
      simp
  | none =>
    cases homeM with
    | some hg =>
      simp only [StableAt, hf] at h
      rw [pn_notfound_noreg g d n st hf h]
      exact ⟨rfl, rfl, rfl, rfl⟩
    | none =>
      simp only [StableAt, hf] at h

theorem pn_acc_cases (gen : String → String) (homeM : Option Group) (g : Group)
    (d : Device) (n : Node) (st : PassState) :
    (processNode gen homeM g d n st).accessories = st.accessories ∨
    (processNode gen homeM g d n st).accessories =
      renameFirst st.accessories (accessoryUUID gen n d) (accessoryName n d) := by
  cases hf : st.accessories.find? (byUUID (accessoryUUID gen n d)) with
  | some ex =>
    cases homeM with
    | some hg =>
      by_cases hh : ex.ctxHome = some hg.name
      · by_cases hnm : ex.displayName = accessoryName n d
        · exact .inl (by simp [processNode, hf, hh, hnm])
        · exact .inr (by simp [processNode, hf, hh, hnm])
      · exact .inl (by simp [processNode, hf, hh])
    | none =>
      by_cases hnm : ex.displayName = accessoryName n d
      · exact .inl (by simp [processNode, hf, hnm])
      · exact .inr (by simp [processNode, hf, hnm])
  | none =>
    cases homeM with
    | some hg =>
      by_cases hr : g.name = hg.name
      · exact .inl (by simp [processNode, hf, hr])
      · exact .inl (by simp [processNode, hf, hr])
    | none => exact .inl (by simp [processNode, hf])

/-! ### Whole-pass characterisation -/

theorem runT_append (gen : String → String) (homeM : Option Group)
    (l₁ l₂ : List Triple) (st : PassState) :
    runT gen homeM (l₁ ++ l₂) st = runT gen homeM l₂ (runT gen homeM l₁ st) := by
  induction l₁ generalizing st with
  | nil => rfl
  | cons t ts ih =>
    obtain ⟨g, d, n⟩ := t
    simp [runT, ih]

theorem runT_acc_projA (gen : String → String) (homeM : Option Group)
    (l : List Triple) (st : PassState) :
    (runT gen homeM l st).accessories.map projA = st.accessories.map projA := by
  induction l generalizing st with
  | nil => rfl
  | cons t ts ih =>
    obtain ⟨g, d, n⟩ := t
    rw [runT, ih, pn_acc_projA]

theorem regCondB_congr {acc₁ acc₂ : List AccessoryRecord}
    (h : acc₁.map projA = acc₂.map projA) (homeM : Option Group)
    (gen : String → String) (t : Triple) :
    regCondB homeM acc₁ gen t = regCondB homeM acc₂ gen t := by
  obtain ⟨g, d, n⟩ := t
  have hiso : (acc₁.find? (byUUID (accessoryUUID gen n d))).isNone =
      (acc₂.find? (byUUID (accessoryUUID gen n d))).isNone := by
    cases h1 : acc₁.find? (byUUID (accessoryUUID gen n d)) with
    | none => rw [find?_none_congr_projA h _ h1]
    | some a =>
      obtain ⟨b, h2, -⟩ := find?_some_congr_projA h _ h1
      rw [h2]
      rfl
  simp only [regCondB, hiso]

theorem remCondB_congr {acc₁ acc₂ : List AccessoryRecord}
    (h : acc₁.map projA = acc₂.map projA) (homeM : Option Group)
    (gen : String → String) (t : Triple) :
    remCondB homeM acc₁ gen t = remCondB homeM acc₂ gen t := by
  obtain ⟨g, d, n⟩ := t
  cases h1 : acc₁.find? (byUUID (accessoryUUID gen n d)) with
  | none =>
    have h2 := find?_none_congr_projA h _ h1
    simp [remCondB, h1, h2]
  | some a =>
    obtain ⟨b, h2, hab⟩ := find?_some_congr_projA h _ h1
    have hctx : b.ctxHome = a.ctxHome := congrArg (fun p => p.2.2.2) hab
    cases homeM with
    | none => simp [remCondB, h1, h2]
    | some hg => simp [remCondB, h1, h2, hctx]

theorem runT_registered (gen : String → String) (homeM : Option Group)
    (l : List Triple) (st : PassState) :
    (runT gen homeM l st).registered =
      st.registered ++
        (l.filter (regCondB homeM st.accessories gen)).map (mkNew gen) := by
  induction l generalizing st with
  | nil => simp [runT]
  | cons t ts ih =>
    obtain ⟨g, d, n⟩ := t
    rw [runT, ih]
    have hacc := pn_acc_projA gen homeM g d n st
    have hfc : ts.filter (regCondB homeM (processNode gen homeM g d n st).accessories gen) =
        ts.filter (regCondB homeM st.accessories gen) := by
      apply List.filter_congr
      intro x _
      exact regCondB_congr hacc homeM gen x
    rw [hfc, pn_registered, List.filter_cons]
    by_cases hc : regCondB homeM st.accessories gen (g, d, n)
    · simp [hc]
    · simp [hc]

theorem runT_unreg_uuids (gen : String → String) (homeM : Option Group)
    (l : List Triple) (st : PassState) :
    (runT gen homeM l st).unregistered.map AccessoryRecord.UUID =
      st.unregistered.map AccessoryRecord.UUID ++
        (l.filter (remCondB homeM st.accessories gen)).map (uuidOf gen) := by
  induction l generalizing st with
  | nil => simp [runT]
  | cons t ts ih =>
    obtain ⟨g, d, n⟩ := t
    rw [runT, ih]
    have hacc := pn_acc_projA gen homeM g d n st
    have hfc : ts.filter (remCondB homeM (processNode gen homeM g d n st).accessories gen) =
        ts.filter (remCondB homeM st.accessories gen) := by
      apply List.filter_congr
      intro x _
      exact remCondB_congr hacc homeM gen x
    rw [hfc, pn_unreg_uuids, List.filter_cons]
    by_cases hc : remCondB homeM st.accessories gen (g, d, n)
    · simp [hc, uuidOf]
    · simp [hc]

theorem runT_find?_frame (gen : String → String) (homeM : Option Group)
    (l : List Triple) (st : PassState) (u : String)
    (h : ∀ t ∈ l, uuidOf gen t ≠ u) :
    (runT gen homeM l st).accessories.find? (byUUID u) =
      st.accessories.find? (byUUID u) := by
  induction l generalizing st with
  | nil => rfl
  | cons t ts ih =>
    obtain ⟨g, d, n⟩ := t
    rw [runT, ih _ (fun t' ht' => h t' (List.mem_cons_of_mem _ ht'))]
    have hne : accessoryUUID gen n d ≠ u := h (g, d, n) (List.mem_cons_self _ _)
    rcases pn_acc_cases gen homeM g d n st with hc | hc <;> rw [hc]
    exact renameFirst_find?_ne (Ne.symm hne)

theorem runT_find?_none (gen : String → String) (homeM : Option Group)
    (l : List Triple) (st : PassState) (u : String)
    (h : st.accessories.find? (byUUID u) = none) :
    (runT gen homeM l st).accessories.find? (byUUID u) = none :=
  find?_none_congr_projA (runT_acc_projA gen homeM l st).symm u h

theorem uuidOf_mk (gen : String → String) (g : Group) (d : Device) (n : Node) :
    uuidOf gen (g, d, n) = accessoryUUID gen n d := rfl

theorem mkNew_UUID (gen : String → String) (t : Triple) :
    (mkNew gen t).UUID = uuidOf gen t := by
  obtain ⟨g, d, n⟩ := t
  rfl

/-- A kept occurrence's accessory survives the pass: it is still found under
its UUID, its non-name fields are untouched, and its display name ends up
being the freshly computed accessory name. -/
theorem runT_find?_kept (gen : String → String) (homeM : Option Group)
    (l : List Triple) :
    (l.map (uuidOf gen)).Nodup →
    ∀ (g : Group) (d : Device) (n : Node), (g, d, n) ∈ l →
    ∀ (st : PassState) (a0 : AccessoryRecord),
      st.accessories.find? (byUUID (accessoryUUID gen n d)) = some a0 →
      (∀ hg, homeM = some hg → a0.ctxHome = some hg.name) →
      ∃ a1, (runT gen homeM l st).accessories.find? (byUUID (accessoryUUID gen n d)) =
          some a1 ∧ projA a1 = projA a0 ∧ a1.displayName = accessoryName n d := by
  induction l with
  | nil =>
    intro _ g d n hmem
    cases hmem
  | cons t ts ih =>
    intro hnodup g d n hmem st a0 hfind hkeep
    have htail : (ts.map (uuidOf gen)).Nodup := by
      rw [List.map_cons, List.nodup_cons] at hnodup
      exact hnodup.2
    rcases List.mem_cons.mp hmem with heq | hmem'
    · cases heq
      rw [runT]
      have hnotmem : uuidOf gen (g, d, n) ∉ ts.map (uuidOf gen) := by
        rw [List.map_cons, List.nodup_cons] at hnodup
        exact hnodup.1
      have hnot : ∀ t' ∈ ts, uuidOf gen t' ≠ accessoryUUID gen n d := by
        intro t' ht' he
        rw [← uuidOf_mk gen g d n] at he
        exact hnotmem (he ▸ List.mem_map_of_mem _ ht')
      by_cases hnm : a0.displayName = accessoryName n d
      · rw [pn_found_keep_norename g d n st hfind hkeep hnm]
        refine ⟨a0, ?_, rfl, hnm⟩
        rw [runT_find?_frame gen homeM ts _ _ hnot]
        exact hfind
      · rw [pn_found_keep_rename g d n st hfind hkeep hnm]
        refine ⟨{ a0 with displayName := accessoryName n d }, ?_, ?_, rfl⟩
        · rw [runT_find?_frame gen homeM ts _ _ hnot]
          exact renameFirst_find?_eq hfind
        · simp [projA]
    · obtain ⟨g0, d0, n0⟩ := t
      rw [runT]
      have hacc := pn_acc_projA gen homeM g0 d0 n0 st
      obtain ⟨a0', h0', hprj⟩ := find?_some_congr_projA hacc.symm _ hfind
      have hkeep' : ∀ hg, homeM = some hg → a0'.ctxHome = some hg.name := by
        intro hg e
        have hc : a0'.ctxHome = a0.ctxHome := congrArg (fun p => p.2.2.2) hprj
        rw [hc]
        exact hkeep hg e
      obtain ⟨a1, h1, hp1, hd1⟩ := ih htail g d n hmem' _ a0' h0' hkeep'
      exact ⟨a1, h1, hp1.trans hprj, hd1⟩

/-- A pass over occurrences that are all stable w.r.t. the current accessory
list performs no rename, no registration and no removal. -/
theorem runT_stable (gen : String → String) (homeM : Option Group)
    (l : List Triple) :
    ∀ st : PassState, (∀ t ∈ l, StableAt gen homeM st.accessories t) →
    (runT gen homeM l st).accessories = st.accessories ∧
    (runT gen homeM l st).renames = st.renames ∧
    (runT gen homeM l st).registered = st.registered ∧
    (runT gen homeM l st).unregistered = st.unregistered := by
  induction l with
  | nil =>
    intro st _
    exact ⟨rfl, rfl, rfl, rfl⟩
  | cons t ts ih =>
    intro st h
    obtain ⟨g, d, n⟩ := t
    rw [runT]
    have hst := pn_stable gen homeM g d n st (h (g, d, n) (List.mem_cons_self _ _))
    have hts : ∀ t' ∈ ts,
        StableAt gen homeM (processNode gen homeM g d n st).accessories t' := by
      intro t' ht'
      rw [hst.1]
      exact h t' (List.mem_cons_of_mem _ ht')
    obtain ⟨h1, h2, h3, h4⟩ := ih _ hts
    exact ⟨h1.trans hst.1, h2.trans hst.2.1, h3.trans hst.2.2.1, h4.trans hst.2.2.2⟩

/-! ### A pass against a pure topology is the flat fold -/

theorem pureClient_getNodes (gs : List Group) (f : String → List Node)
    (d : String) : (pureClient gs f).getNodes d = .ok (f d) := rfl

theorem pureClient_getGroupedDevices (gs : List Group) (f : String → List Node) :
    (pureClient gs f).getGroupedDevices = .ok gs := rfl

theorem processNodes_eq_runT (gen : String → String) (homeM : Option Group)
    (g : Group) (d : Device) (ns : List Node) (st : PassState) :
    processNodes gen homeM g d ns st =
      runT gen homeM (ns.map (fun n => (g, d, n))) st := by
  induction ns generalizing st with
  | nil => rfl
  | cons n ns ih => simp [processNodes, runT, ih]

theorem processDevices_eq_runT (gs0 : List Group) (f : String → List Node)
    (gen : String → String) (homeM : Option Group) (g : Group)
    (ds : List Device) (st : PassState) :
    processDevices (pureClient gs0 f) gen homeM g ds st =
      .ok (runT gen homeM
        (ds.flatMap (fun d => (f d.dev_id).map (fun n => (g, d, n)))) st) := by
  induction ds generalizing st with
  | nil => rfl
  | cons d ds ih =>
    simp only [processDevices, processDevice, pureClient_getNodes]
    rw [processNodes_eq_runT, ih, List.flatMap_cons, runT_append]

theorem processGroups_eq_runT (gs0 : List Group) (f : String → List Node)
    (gen : String → String) (homeM : Option Group) (gs : List Group)
    (st : PassState) :
    processGroups (pureClient gs0 f) gen homeM gs st =
      .ok (runT gen homeM (flatT f gs) st) := by
  induction gs generalizing st with
  | nil => rfl
  | cons g gs ih =>
    simp only [processGroups]
    rw [processDevices_eq_runT]
    simp only [flatT, List.flatMap_cons] at *
    rw [ih, runT_append]

/-- Against a pure topology the whole discovery pass is the flat fold over
all (group, device, node) occurrences, with the home filter resolved up
front. -/
theorem discover_pure_eq_runT (gs : List Group) (f : String → List Node)
    (cfg : Option String) (gen : String → String) (A : List AccessoryRecord) :
    discoverDevices (pureClient gs f) cfg gen A =
      runT gen (gs.find? (fun g => decide (some g.name = cfg))) (flatT f gs)
        (initState A) := by
  simp only [discoverDevices, pureClient_getGroupedDevices]
  rw [processGroups_eq_runT]

/-- After one pass from cache `A` and a restart, every occurrence of the
unchanged topology is stable, provided the occurrences' UUIDs are pairwise
distinct and every cached accessory matching an occurrence records that
occurrence's group name as its home. -/
theorem stable_after_pass (gen : String → String) (homeM : Option Group)
    (l : List Triple) (A : List AccessoryRecord)
    (hnodup : (l.map (uuidOf gen)).Nodup)
    (hhome : ∀ a ∈ A, ∀ t ∈ l, uuidOf gen t = a.UUID → a.ctxHome = some t.1.name) :
    ∀ t ∈ l, StableAt gen homeM (restartCache (runT gen homeM l (initState A))) t := by
  intro t hmem
  obtain ⟨g, d, n⟩ := t
  have hinj : ∀ t₁ ∈ l, ∀ t₂ ∈ l, uuidOf gen t₁ = uuidOf gen t₂ → t₁ = t₂ :=
    fun t₁ h₁ t₂ h₂ he => List.inj_on_of_nodup_map hnodup h₁ h₂ he
  have hreg : (runT gen homeM l (initState A)).registered =
      (l.filter (regCondB homeM A gen)).map (mkNew gen) := by
    rw [runT_registered]
    simp [initState]
  have hunregU :
      (runT gen homeM l (initState A)).unregistered.map AccessoryRecord.UUID =
        (l.filter (remCondB homeM A gen)).map (uuidOf gen) := by
    rw [runT_unreg_uuids]
    simp [initState]
  cases hA : A.find? (byUUID (accessoryUUID gen n d)) with
  | some a0 =>
    have ha0A : a0 ∈ A := List.mem_of_find?_eq_some hA
    have ha0u : a0.UUID = accessoryUUID gen n d := uuid_of_find? hA
    cases homeM with
    | none =>
      have hkeep : ∀ hg, (none : Option Group) = some hg → a0.ctxHome = some hg.name := by
        intro hg e
        cases e
      obtain ⟨a1, h1, hp1, hd1⟩ :=
        runT_find?_kept gen none l hnodup g d n hmem (initState A) a0 hA hkeep
      have hnotun : accessoryUUID gen n d ∉
          (runT gen none l (initState A)).unregistered.map AccessoryRecord.UUID := by
        rw [hunregU]
        intro hmem'
        obtain ⟨t', ht', he⟩ := List.mem_map.mp hmem'
        have hcond : remCondB none A gen t' = true := (List.mem_filter.mp ht').2
        obtain ⟨g', d', n'⟩ := t'
        cases hfind' : A.find? (byUUID (accessoryUUID gen n' d')) <;>
          simp [remCondB, hfind'] at hcond
      have hq : ∀ a : AccessoryRecord, a.UUID = accessoryUUID gen n d →
          decide (a.UUID ∉
            (runT gen none l (initState A)).unregistered.map AccessoryRecord.UUID) = true := by
        intro a ha
        rw [ha]
        simp [hnotun]
      have hfull : (restartCache (runT gen none l (initState A))).find?
          (byUUID (accessoryUUID gen n d)) = some a1 := by
        simp only [restartCache]
        rw [List.find?_append, find?_filter_keep hq, h1]
        rfl
      simp only [StableAt, hfull]
      exact hd1
    | some hg =>
      by_cases hctx : a0.ctxHome = some hg.name
      · have hkeep : ∀ hg', (some hg : Option Group) = some hg' →
            a0.ctxHome = some hg'.name := by
          intro hg' e
          cases e
          exact hctx
        obtain ⟨a1, h1, hp1, hd1⟩ :=
          runT_find?_kept gen (some hg) l hnodup g d n hmem (initState A) a0 hA hkeep
        have hnotun : accessoryUUID gen n d ∉
            (runT gen (some hg) l (initState A)).unregistered.map AccessoryRecord.UUID := by
          rw [hunregU]
          intro hmem'
          obtain ⟨t', ht', he⟩ := List.mem_map.mp hmem'
          have ht'l : t' ∈ l := (List.mem_filter.mp ht').1
          have hcond : remCondB (some hg) A gen t' = true := (List.mem_filter.mp ht').2
          have hteq : t' = (g, d, n) := hinj t' ht'l (g, d, n) hmem (by rw [he, uuidOf_mk])
          rw [hteq] at hcond
          simp [remCondB, hA, hctx] at hcond
        have hq : ∀ a : AccessoryRecord, a.UUID = accessoryUUID gen n d →
            decide (a.UUID ∉
              (runT gen (some hg) l (initState A)).unregistered.map
                AccessoryRecord.UUID) = true := by
          intro a ha
          rw [ha]
          simp [hnotun]
        have hfull : (restartCache (runT gen (some hg) l (initState A))).find?
            (byUUID (accessoryUUID gen n d)) = some a1 := by
          simp only [restartCache]
          rw [List.find?_append, find?_filter_keep hq, h1]
          rfl
        simp only [StableAt, hfull]
        constructor
        · have hc : a1.ctxHome = a0.ctxHome := congrArg (fun p => p.2.2.2) hp1
          rw [hc]
          exact hctx
        · exact hd1
      · have hcond : remCondB (some hg) A gen (g, d, n) = true := by
          simp [remCondB, hA, hctx]
        have hunmem : accessoryUUID gen n d ∈
            (runT gen (some hg) l (initState A)).unregistered.map AccessoryRecord.UUID := by
          rw [hunregU]
          exact List.mem_map.mpr
            ⟨(g, d, n), List.mem_filter.mpr ⟨hmem, hcond⟩, uuidOf_mk gen g d n⟩
        have hq : ∀ a : AccessoryRecord, a.UUID = accessoryUUID gen n d →
            decide (a.UUID ∉
              (runT gen (some hg) l (initState A)).unregistered.map
                AccessoryRecord.UUID) = false := by
          intro a ha
          rw [ha]
          simp [hunmem]
        have hregnone : (runT gen (some hg) l (initState A)).registered.find?
            (byUUID (accessoryUUID gen n d)) = none := by
          rw [hreg, List.find?_eq_none]
          intro x hx hpx
          obtain ⟨t', ht', rfl⟩ := List.mem_map.mp hx
          have hxu : (mkNew gen t').UUID = accessoryUUID gen n d := by
            simpa [byUUID] using hpx
          rw [mkNew_UUID] at hxu
          have ht'l : t' ∈ l := (List.mem_filter.mp ht').1
          have hcond' : regCondB (some hg) A gen t' = true := (List.mem_filter.mp ht').2
          have hteq : t' = (g, d, n) := hinj t' ht'l (g, d, n) hmem (by rw [hxu, uuidOf_mk])
          rw [hteq] at hcond'
          simp [regCondB, hA] at hcond'
        have hfull : (restartCache (runT gen (some hg) l (initState A))).find?
            (byUUID (accessoryUUID gen n d)) = none := by
          simp only [restartCache]
          rw [List.find?_append, find?_filter_drop hq, hregnone]
          rfl
        simp only [StableAt, hfull]
        have hch : a0.ctxHome = some g.name :=
          hhome a0 ha0A (g, d, n) hmem (by rw [uuidOf_mk, ha0u])
        intro he
        apply hctx
        rw [hch, he]
  | none =>
    have hAr : (runT gen homeM l (initState A)).accessories.find?
        (byUUID (accessoryUUID gen n d)) = none :=
      runT_find?_none gen homeM l (initState A) _ hA
    have hkeptnone : ((runT gen homeM l (initState A)).accessories.filter
        (fun a => decide (a.UUID ∉
          (runT gen homeM l (initState A)).unregistered.map
            AccessoryRecord.UUID))).find? (byUUID (accessoryUUID gen n d)) = none :=
      find?_none_filter hAr
    cases homeM with
    | none =>
      have hcond : regCondB none A gen (g, d, n) = true := by
        simp [regCondB, hA]
      have hfindreg : (runT gen none l (initState A)).registered.find?
          (byUUID (accessoryUUID gen n d)) = some (mkNew gen (g, d, n)) := by
        rw [hreg]
        apply find?_map_of_unique (List.mem_filter.mpr ⟨hmem, hcond⟩)
        · apply byUUID_true
          rw [mkNew_UUID, uuidOf_mk]
        · intro t' ht' hpt'
          have hxu : (mkNew gen t').UUID = accessoryUUID gen n d := by
            simpa [byUUID] using hpt'
          rw [mkNew_UUID] at hxu
          have ht'l : t' ∈ l := (List.mem_filter.mp ht').1
          have hteq : t' = (g, d, n) := hinj t' ht'l (g, d, n) hmem (by rw [hxu, uuidOf_mk])
          rw [hteq]
      have hfull : (restartCache (runT gen none l (initState A))).find?
          (byUUID (accessoryUUID gen n d)) = some (mkNew gen (g, d, n)) := by
        simp only [restartCache]
        rw [List.find?_append, hkeptnone, hfindreg]
        rfl
      simp only [StableAt, hfull]
      rfl
    | some hg =>
      by_cases hgg : g.name = hg.name
      · have hcond : regCondB (some hg) A gen (g, d, n) = true := by
          simp [regCondB, hA, hgg]
        have hfindreg : (runT gen (some hg) l (initState A)).registered.find?
            (byUUID (accessoryUUID gen n d)) = some (mkNew gen (g, d, n)) := by
          rw [hreg]
          apply find?_map_of_unique (List.mem_filter.mpr ⟨hmem, hcond⟩)
          · apply byUUID_true
            rw [mkNew_UUID, uuidOf_mk]
          · intro t' ht' hpt'
            have hxu : (mkNew gen t').UUID = accessoryUUID gen n d := by
              simpa [byUUID] using hpt'
            rw [mkNew_UUID] at hxu
            have ht'l : t' ∈ l := (List.mem_filter.mp ht').1
            have hteq : t' = (g, d, n) :=
              hinj t' ht'l (g, d, n) hmem (by rw [hxu, uuidOf_mk])
            rw [hteq]
        have hfull : (restartCache (runT gen (some hg) l (initState A))).find?
            (byUUID (accessoryUUID gen n d)) = some (mkNew gen (g, d, n)) := by
          simp only [restartCache]
          rw [List.find?_append, hkeptnone, hfindreg]
          rfl
        simp only [StableAt, hfull]
        exact ⟨by simp [mkNew, hgg], rfl⟩
      · have hregnone : (runT gen (some hg) l (initState A)).registered.find?
            (byUUID (accessoryUUID gen n d)) = none := by
          rw [hreg, List.find?_eq_none]
          intro x hx hpx
          obtain ⟨t', ht', rfl⟩ := List.mem_map.mp hx
          have hxu : (mkNew gen t').UUID = accessoryUUID gen n d := by
            simpa [byUUID] using hpx
          rw [mkNew_UUID] at hxu
          have ht'l : t' ∈ l := (List.mem_filter.mp ht').1
          have hcond' : regCondB (some hg) A gen t' = true := (List.mem_filter.mp ht').2
          have hteq : t' = (g, d, n) := hinj t' ht'l (g, d, n) hmem (by rw [hxu, uuidOf_mk])
          rw [hteq] at hcond'
          simp [regCondB, hA, hgg] at hcond'
        have hfull : (restartCache (runT gen (some hg) l (initState A))).find?
            (byUUID (accessoryUUID gen n d)) = none := by
          simp only [restartCache]
          rw [List.find?_append, hkeptnone, hregnone]
          rfl
        simp only [StableAt, hfull]
        exact hgg

/-- C3 (amended): running the discovery pass twice against an unchanged
remote topology performs zero renames, zero new accessory registrations and
zero removals on the second pass, provided the topology's node UUIDs are
pairwise distinct (the spec's own no-collision invariant) and every cached
accessory that matches a topology node records that node's group name as its
home. -/
theorem discovery_second_pass_clean (gs : List Group) (f : String → List Node)
    (cfg : Option String) (gen : String → String) (A : List AccessoryRecord)
    (hnodup : ((flatT f gs).map (uuidOf gen)).Nodup)
    (hhome : ∀ a ∈ A, ∀ t ∈ flatT f gs, uuidOf gen t = a.UUID →
      a.ctxHome = some t.1.name) :
    (discoverDevices (pureClient gs f) cfg gen
        (restartCache (discoverDevices (pureClient gs f) cfg gen A))).renames = [] ∧
    (discoverDevices (pureClient gs f) cfg gen
        (restartCache (discoverDevices (pureClient gs f) cfg gen A))).registered = [] ∧
    (discoverDevices (pureClient gs f) cfg gen
        (restartCache (discoverDevices (pureClient gs f) cfg gen A))).unregistered = [] := by
  rw [discover_pure_eq_runT, discover_pure_eq_runT]
  have hstable :=
    stable_after_pass gen (gs.find? (fun g => decide (some g.name = cfg)))
      (flatT f gs) A hnodup hhome
  obtain ⟨h1, h2, h3, h4⟩ :=
    runT_stable gen (gs.find? (fun g => decide (some g.name = cfg))) (flatT f gs)
      (initState (restartCache
        (runT gen (gs.find? (fun g => decide (some g.name = cfg))) (flatT f gs)
          (initState A))))
      hstable
  exact ⟨h2, h3, h4⟩

/-- The witness topology: home "A" holds `dev1` whose single node is `node1`;
the cache holds `radA`, the accessory of `node1` correctly recorded under
home "A". -/
def homeTopo : List Group := [{ name := "A", devs := [dev1] }]

/-- Witness for `discovery_second_pass_clean`: with filter "A" and a
consistent cache, the second pass renames, registers and removes nothing. -/
theorem discovery_second_pass_clean_witness :
    (discoverDevices (pureClient homeTopo staleNodes) (some "A") (fun s => s)
        (restartCache (discoverDevices (pureClient homeTopo staleNodes) (some "A")
          (fun s => s) [radA]))).renames = [] ∧
    (discoverDevices (pureClient homeTopo staleNodes) (some "A") (fun s => s)
        (restartCache (discoverDevices (pureClient homeTopo staleNodes) (some "A")
          (fun s => s) [radA]))).registered = [] ∧
    (discoverDevices (pureClient homeTopo staleNodes) (some "A") (fun s => s)
        (restartCache (discoverDevices (pureClient homeTopo staleNodes) (some "A")
          (fun s => s) [radA]))).unregistered = [] :=
  discovery_second_pass_clean homeTopo staleNodes (some "A") (fun s => s) [radA]
    (by decide) (by decide)

end Technotherm
